import Mathlib

/-
Verification development for the bulwark decorator engine
(`bulwark/decorators.py`).

The Python code is shallowly embedded: Python runtime values are the
inductive type `Val`, exceptions are `PyErr`, a Python function with
positional-or-keyword parameters is `PyFunc` (declared parameter list with
optional defaults, plus a semantic body over bound arguments), and calling
follows CPython's `Signature.bind` / `apply_defaults` rules.  Decorator
instances (`BaseDecorator`, `CustomCheck`) are records holding the state
that `__init__` stores in the instance `__dict__`, and the wrapped callable
produced by `__call__` is modelled by `BaseDecorator.invoke` /
`CustomCheck.invoke`, which also return the trace of target / check
invocations so that ordering claims can be stated.
-/

/-- A Python runtime value, restricted to the shapes the decorator engine
inspects.  Function objects are opaque references (`fn tag`) resolved
through an environment `Nat → PyFunc`; dataframes and other opaque payloads
can be represented by any constructor since the engine never looks inside
the checked data. -/
inductive Val where
  | none
  | bool (b : Bool)
  | int (n : Int)
  | str (s : String)
  | tuple (elems : List Val)
  | fn (tag : Nat)

/-- The Python type of a value, as `type(x)` sees it (`type(True)` is
`bool`, not `int`). -/
inductive PyType where
  | NoneType
  | bool
  | int
  | str
  | tuple
  | function
  deriving DecidableEq, Repr

def Val.pyType : Val → PyType
  | Val.none => PyType.NoneType
  | Val.bool _ => PyType.bool
  | Val.int _ => PyType.int
  | Val.str _ => PyType.str
  | Val.tuple _ => PyType.tuple
  | Val.fn _ => PyType.function

/-- Rendering of `type(x)` used in the constructor's error message. -/
def PyType.clsName : PyType → String
  | PyType.NoneType => "<class 'NoneType'>"
  | PyType.bool => "<class 'bool'>"
  | PyType.int => "<class 'int'>"
  | PyType.str => "<class 'str'>"
  | PyType.tuple => "<class 'tuple'>"
  | PyType.function => "<class 'function'>"

/-- Python truthiness (`if x:`). -/
def Val.truthy : Val → Bool
  | Val.none => false
  | Val.bool b => b
  | Val.int n => decide (n ≠ 0)
  | Val.str s => decide (s ≠ "")
  | Val.tuple l => !l.isEmpty
  | Val.fn _ => true

/-- `x is None`. -/
def Val.isNone : Val → Bool
  | Val.none => true
  | _ => false

/-- The Python exceptions the embedded code can raise.  `checkError` stands
for whatever error a check operation signals on validation failure. -/
inductive PyErr where
  | typeError (msg : String)
  | nameError (msg : String)
  | keyError (key : String)
  | indexError (msg : String)
  | checkError (msg : String)
  deriving DecidableEq, Repr

/-- Association list with string keys, modelling a Python `dict`
(insertion-ordered, unique keys once built via `dictUpdate`). -/
abbrev KV (α : Type) := List (String × α)

abbrev Dict := KV Val

/-- `d[k]`, first matching key. -/
def aLookup {α : Type} : KV α → String → Option α
  | [], _ => Option.none
  | (k0, v0) :: rest, k => if k0 = k then some v0 else aLookup rest k

/-- `d[k] = v`: replace in place if the key exists, else append (CPython
dict update semantics). -/
def dictUpdate {α : Type} : KV α → String → α → KV α
  | [], k, v => [(k, v)]
  | (k0, v0) :: rest, k, v =>
    if k0 = k then (k0, v) :: rest else (k0, v0) :: dictUpdate rest k v

/-- `d.update(pairs)`, applied left to right. -/
def dictUpdates {α : Type} (d : KV α) (l : List (String × α)) : KV α :=
  l.foldl (fun acc p => dictUpdate acc p.1 p.2) d

/-- `dict(pairs)`. -/
def listToDict {α : Type} (l : List (String × α)) : KV α :=
  dictUpdates [] l

/-- `d.pop(k, ...)` / dict comprehension dropping key `k`. -/
def dictRemove {α : Type} : KV α → String → KV α
  | [], _ => []
  | (k0, v0) :: rest, k =>
    if k0 = k then dictRemove rest k else (k0, v0) :: dictRemove rest k

/-- A Python function: its name, declared positional-or-keyword parameters
(with optional defaults) and its body, a map from bound arguments to the
result (or a raised exception).  This models functions whose signatures
consist of plain positional-or-keyword parameters, which is the calling
convention the decorator engine relies on (`getfullargspec(...).args`,
`signature(...).parameters`). -/
structure PyFunc where
  name : String
  params : List (String × Option Val)
  impl : KV Val → Except PyErr Val

/-- Positional phase of `Signature.bind`: zip positional arguments with the
leading parameters, or fail with the CPython error. -/
def bindPositional (params : List (String × Option Val)) (args : List Val) :
    Except PyErr (KV Val) :=
  if args.length > params.length then
    Except.error (PyErr.typeError "too many positional arguments")
  else
    Except.ok (List.zip (params.map (fun p => p.1)) args)

/-- `Signature.bind`: a parameter bound positionally must not also be
supplied by keyword. -/
def checkMultiple (pos : KV Val) (kwargs : Dict) : Except PyErr Unit :=
  match pos.find? (fun p => (aLookup kwargs p.1).isSome) with
  | some p =>
    Except.error (PyErr.typeError ("got multiple values for argument " ++ p.1))
  | Option.none => Except.ok ()

/-- For each declared parameter take, in order: its positional binding, its
keyword binding, or its declared default; a required parameter with none of
these fails the bind (`Signature.bind` + `apply_defaults`). -/
def fillParams (pos : KV Val) (kwargs : Dict) :
    List (String × Option Val) → Except PyErr (KV Val)
  | [] => Except.ok []
  | (n, dflt) :: rest =>
    match aLookup pos n with
    | some v => (fillParams pos kwargs rest).map (fun r => (n, v) :: r)
    | Option.none =>
      match aLookup kwargs n with
      | some v => (fillParams pos kwargs rest).map (fun r => (n, v) :: r)
      | Option.none =>
        match dflt with
        | some v => (fillParams pos kwargs rest).map (fun r => (n, v) :: r)
        | Option.none =>
          Except.error (PyErr.typeError ("missing a required argument: " ++ n))

/-- `Signature.bind`: every keyword argument must name a declared
parameter. -/
def checkUnexpected (paramNames : List String) (kwargs : Dict) :
    Except PyErr Unit :=
  match kwargs.find? (fun p => !(paramNames.contains p.1)) with
  | some p =>
    Except.error (PyErr.typeError ("got an unexpected keyword argument " ++ p.1))
  | Option.none => Except.ok ()

/-- `Signature.bind(*args, **kwargs)` followed by `apply_defaults()`:
returns the full parameter-name → value mapping in declaration order, or
raises a `TypeError` (arity / keyword mismatch). -/
def bindArgs (params : List (String × Option Val)) (args : List Val)
    (kwargs : Dict) : Except PyErr (KV Val) :=
  match bindPositional params args with
  | Except.error e => Except.error e
  | Except.ok pos =>
    match checkMultiple pos kwargs with
    | Except.error e => Except.error e
    | Except.ok _ =>
      match fillParams pos kwargs params with
      | Except.error e => Except.error e
      | Except.ok bound =>
        match checkUnexpected (params.map (fun p => p.1)) kwargs with
        | Except.error e => Except.error e
        | Except.ok _ => Except.ok bound

/-- Calling a Python function: bind the call arguments against the declared
signature (raising the binding `TypeError`s before the body runs), then run
the body on the bound arguments. -/
def pyCall (f : PyFunc) (args : List Val) (kwargs : Dict) : Except PyErr Val :=
  match bindArgs f.params args kwargs with
  | Except.error e => Except.error e
  | Except.ok bound => f.impl bound

/-- `self.check_func(**check_kwargs)`: a check call is made entirely with
keyword arguments and its return value is discarded. -/
def runCheck (cf : PyFunc) (kwargs : Dict) : Except PyErr Unit :=
  match pyCall cf [] kwargs with
  | Except.error e => Except.error e
  | Except.ok _ => Except.ok ()

/-- Python tuple indexing `res[i]`: negative indices count from the end;
anything else out of range raises `IndexError`. -/
def pyIndex (elems : List Val) (i : Int) : Except PyErr Val :=
  let n : Int := Int.ofNat elems.length
  let j : Int := if i < 0 then i + n else i
  if 0 ≤ j ∧ j < n then Except.ok (elems.getD j.toNat Val.none)
  else Except.error (PyErr.indexError "tuple index out of range")

/-- One step of the observable trace of a wrapped call: the attempt to call
the target (`f(*args, **kwargs)`) or the attempt to call the check with a
given keyword-argument dict (`self.check_func(**check_kwargs)`). -/
inductive Event where
  | targetCall
  | checkCall (kwargs : Dict)

/-- The state a `BaseDecorator` instance carries after `__init__`:
`check_func` is the class attribute bound by the decorator factory;
`enabled` and `params` are the bookkeeping attributes `__init__` assigns;
`attrs` is the rest of the instance `__dict__`, i.e. the configuration
entries merged from the positional args (zipped with `params`) and the
remaining keyword args. -/
structure BaseDecorator where
  check_func : PyFunc
  enabled : Val
  params : List String
  attrs : Dict

/-- The instance `__dict__` configuration entries built by `__init__`:
`dict(zip(self.params, args))` updated with the keyword arguments
(after `enabled` was popped). -/
def BaseDecorator.initAttrs (cf : PyFunc) (args : List Val) (kwargs : Dict) :
    Dict :=
  dictUpdates
    (listToDict (List.zip ((cf.params.map (fun p => p.1)).drop 1) args))
    (dictRemove kwargs "enabled")

/-- The final value of `self.enabled`: `kwargs.pop("enabled", True)`, unless
the positional zip rebinds the `__dict__` entry named `enabled` (the
attribute and the dict slot are the same storage). -/
def BaseDecorator.initEnabled (cf : PyFunc) (args : List Val) (kwargs : Dict) :
    Val :=
  (aLookup (BaseDecorator.initAttrs cf args kwargs) "enabled").getD
    ((aLookup kwargs "enabled").getD (Val.bool true))

/-- `self._df`: `self.__dict__.get('df', None)` at the end of
`__init__`. -/
def BaseDecorator.initLocator (cf : PyFunc) (args : List Val) (kwargs : Dict) :
    Val :=
  (aLookup (BaseDecorator.initAttrs cf args kwargs) "df").getD Val.none

/-- `df_allowed_types = (int, str, type(None))`. -/
def dfAllowedTypes : List PyType := [PyType.int, PyType.str, PyType.NoneType]

/-- The `TypeError` message raised for a locator of disallowed type
(`"'df' arg cannot by of type {}..."` with the type formatted in). -/
def dfTypeMsg (t : PyType) : String :=
  "'df' arg cannot by of type " ++ t.clsName ++ ".\n" ++
  "Only allowed types are:\n" ++
  " str:  arg name of the input argument to the decorated function to check\n" ++
  " int:  the entry in a tuple returned by the decorated function to check\n" ++
  " None: check the single dataframe return by the decorated function"

/-- `BaseDecorator.__init__(*args, **kwargs)`: pop `enabled`, record the
check function's declared parameters minus the first, merge positional and
keyword configuration into the instance dict, then validate that the type
of `self._df` is one of `(int, str, type(None))`. -/
def BaseDecorator.init (cf : PyFunc) (args : List Val) (kwargs : Dict) :
    Except PyErr BaseDecorator :=
  if (BaseDecorator.initLocator cf args kwargs).pyType ∈ dfAllowedTypes then
    Except.ok
      { check_func := cf
        enabled := BaseDecorator.initEnabled cf args kwargs
        params := (cf.params.map (fun p => p.1)).drop 1
        attrs := BaseDecorator.initAttrs cf args kwargs }
  else
    Except.error
      (PyErr.typeError (dfTypeMsg (BaseDecorator.initLocator cf args kwargs).pyType))

/-- `BaseDecorator._has_arg_name(arg_name, func)`:
`arg_name in signature(func).parameters`. -/
def has_arg_name (arg_name : String) (func : PyFunc) : Bool :=
  (func.params.map (fun p => p.1)).contains arg_name

/-- `"'{}' is not an arg to function '{}'"` -/
def nameErrMsg (s : String) (f : PyFunc) : String :=
  "'" ++ s ++ "' is not an arg to function '" ++ f.name ++ "'"

/-- `BaseDecorator.__call__(f)` up to returning the wrapped callable: when
the locator is a string it is eagerly validated against `f`'s parameters,
raising `NameError` at wrap time; otherwise wrapping always succeeds.  The
wrapped callable itself is the pair `(self, f)` interpreted by
`BaseDecorator.invoke`. -/
def BaseDecorator.call (d : BaseDecorator) (f : PyFunc) :
    Except PyErr (BaseDecorator × PyFunc) :=
  match aLookup d.attrs "df" with
  | some (Val.str s) =>
    if has_arg_name s f then Except.ok (d, f)
    else Except.error (PyErr.nameError (nameErrMsg s f))
  | _ => Except.ok (d, f)

/-- `BaseDecorator._get_arg_default(func, arg_name)`:
`signature(func).parameters[arg_name].default`.  `Option.none` is the
`Parameter.empty` sentinel (no declared default); a missing name raises
`KeyError` as `parameters[arg_name]` would. -/
def get_arg_default (func : PyFunc) (arg_name : String) :
    Except PyErr (Option Val) :=
  match func.params.find? (fun p => p.1 == arg_name) with
  | some p => Except.ok p.2
  | Option.none => Except.error (PyErr.keyError arg_name)

/-- `BaseDecorator._get_arg_value(func, arg_name, *args, **kwargs)`: bind
the call arguments, apply defaults, and read the resolved value. -/
def get_arg_value (func : PyFunc) (arg_name : String) (args : List Val)
    (kwargs : Dict) : Except PyErr Val :=
  match bindArgs func.params args kwargs with
  | Except.error e => Except.error e
  | Except.ok bound =>
    match aLookup bound arg_name with
    | some v => Except.ok v
    | Option.none => Except.error (PyErr.keyError arg_name)

/-- `isinstance(df_default, Parameter.empty)`.  In CPython,
`inspect.Parameter.empty` is the class `inspect._empty` itself, and the
`default` slot of a parameter with no default holds that class object —
not an instance of it (`type(_empty)` is `type`, which is not a subclass
of `_empty`).  No value that can occupy a `default` slot is an instance of
`_empty`, so this test is `False` for every default that can arise; in
particular it does NOT recognise the "no default" sentinel. -/
def isinstanceParameterEmpty (dflt : Option Val) : Bool :=
  match dflt with
  | _ => false

/-- `check_kwargs = {k: v for k, v in self.__dict__.items() if k not in
["check_func", "enabled", "params"]}`. -/
def checkKwargs (attrs : Dict) : Dict :=
  attrs.filter (fun p =>
    !(p.1 == "check_func" || p.1 == "enabled" || p.1 == "params"))

/-- `getfullargspec` / calling a stored value as a function: only actual
function objects resolve; anything else raises `TypeError` when used as
the check function. -/
def resolveFn (heap : Nat → PyFunc) : Val → Except PyErr PyFunc
  | Val.fn tag => Except.ok (heap tag)
  | _ => Except.error (PyErr.typeError "object is not callable")

/-- The function object actually called by `self.check_func(...)`: an
instance `__dict__` entry named `check_func` (merged from configuration)
shadows the class attribute set by the decorator factory. -/
def BaseDecorator.effCheckFn (heap : Nat → PyFunc) (d : BaseDecorator) :
    Except PyErr PyFunc :=
  match aLookup d.attrs "check_func" with
  | some v => resolveFn heap v
  | Option.none => Except.ok d.check_func

/-- Executing the statement `self.check_func(**kwargs)`. -/
def callCheck (heap : Nat → PyFunc) (d : BaseDecorator) (kwargs : Dict) :
    Except PyErr Unit :=
  match BaseDecorator.effCheckFn heap d with
  | Except.error e => Except.error e
  | Except.ok cf => runCheck cf kwargs

/-- `Your function needs to return a tuple to use df=<int> in this
decorator` -/
def tupleErrMsg : String :=
  "Your function needs to return a tuple to use df=<int> in this decorator"

/-- The `self._df is None` branch of `decorated`: call the target, then
check its return value under keyword `df`, then return the result. -/
def BaseDecorator.invokeRet (heap : Nat → PyFunc) (d : BaseDecorator)
    (f : PyFunc) (args : List Val) (kwargs : Dict) :
    List Event × Except PyErr Val :=
  match pyCall f args kwargs with
  | Except.error e => ([Event.targetCall], Except.error e)
  | Except.ok res =>
    ([Event.targetCall,
      Event.checkCall (dictUpdate (checkKwargs d.attrs) "df" res)],
     (callCheck heap d (dictUpdate (checkKwargs d.attrs) "df" res)).map
       (fun _ => res))

/-- The `type(self._df) is int` branch of `decorated`: call the target,
require a tuple result, check element `res[i]`, return the whole tuple. -/
def BaseDecorator.invokeInt (heap : Nat → PyFunc) (d : BaseDecorator)
    (f : PyFunc) (i : Int) (args : List Val) (kwargs : Dict) :
    List Event × Except PyErr Val :=
  match pyCall f args kwargs with
  | Except.error e => ([Event.targetCall], Except.error e)
  | Except.ok res =>
    match res with
    | Val.tuple elems =>
      match pyIndex elems i with
      | Except.error e => ([Event.targetCall], Except.error e)
      | Except.ok v =>
        ([Event.targetCall,
          Event.checkCall (dictUpdate (checkKwargs d.attrs) "df" v)],
         (callCheck heap d (dictUpdate (checkKwargs d.attrs) "df" v)).map
           (fun _ => res))
    | _ => ([Event.targetCall], Except.error (PyErr.typeError tupleErrMsg))

/-- The `type(self._df) is str` branch of `decorated`: resolve the named
argument's declared default and bound value; run the check first when
`isinstance(df_default, Parameter.empty) or (df_value is not None)`; then
call the target and return its result. -/
def BaseDecorator.invokeStr (heap : Nat → PyFunc) (d : BaseDecorator)
    (f : PyFunc) (s : String) (args : List Val) (kwargs : Dict) :
    List Event × Except PyErr Val :=
  match get_arg_default f s with
  | Except.error e => ([], Except.error e)
  | Except.ok df_default =>
    match get_arg_value f s args kwargs with
    | Except.error e => ([], Except.error e)
    | Except.ok df_value =>
      if isinstanceParameterEmpty df_default || !df_value.isNone then
        match callCheck heap d (dictUpdate (checkKwargs d.attrs) "df" df_value) with
        | Except.error e =>
          ([Event.checkCall (dictUpdate (checkKwargs d.attrs) "df" df_value)],
           Except.error e)
        | Except.ok _ =>
          ([Event.checkCall (dictUpdate (checkKwargs d.attrs) "df" df_value),
            Event.targetCall],
           pyCall f args kwargs)
      else ([Event.targetCall], pyCall f args kwargs)

/-- One invocation of the wrapped callable `decorated(*args, **kwargs)`:
bypass when disabled, otherwise dispatch on `self._df` exactly as the
`if` chain does.  (With a locator of any other type — impossible for an
instance that passed `__init__` — the Python function falls off the end
and returns `None`.)  The first component is the trace of target / check
call attempts, in order. -/
def BaseDecorator.invoke (heap : Nat → PyFunc) (d : BaseDecorator)
    (f : PyFunc) (args : List Val) (kwargs : Dict) :
    List Event × Except PyErr Val :=
  if d.enabled.truthy = false then
    ([Event.targetCall], pyCall f args kwargs)
  else
    match aLookup d.attrs "df" with
    | Option.none => BaseDecorator.invokeRet heap d f args kwargs
    | some Val.none => BaseDecorator.invokeRet heap d f args kwargs
    | some (Val.int i) => BaseDecorator.invokeInt heap d f i args kwargs
    | some (Val.str s) => BaseDecorator.invokeStr heap d f s args kwargs
    | some _ => ([], Except.ok Val.none)

/-- Capitalize the first character of a word. -/
def capitalizeWord : List Char → List Char
  | [] => []
  | c :: cs => c.toUpper :: cs

/-- Split a character list on a separator (like Python's `str.split`). -/
def splitOnChar (sep : Char) : List Char → List (List Char)
  | [] => [[]]
  | c :: cs =>
    if c = sep then [] :: splitOnChar sep cs
    else
      match splitOnChar sep cs with
      | [] => [[c]]
      | w :: ws => (c :: w) :: ws

/-- Modelled from the spec: `bulwark.generic.snake_to_camel` is not under
`src/` (only `decorators.py` is); §4.3/§6 describe it as "a
naming-convention conversion (snake-case → capitalized-camel-case)", a pure
function on identifiers: split on underscores, capitalize each segment,
concatenate. -/
def snake_to_camel (s : String) : String :=
  String.mk (((splitOnChar '_' s.data).map capitalizeWord).flatten)

/-- One member of the external check-library module as `inspect.getmembers`
sees it: its attribute name, whether it is a function, its `__module__`,
and the function object itself. -/
structure Member where
  name : String
  isfunction : Bool
  module : String
  fn : PyFunc

/-- Insertion into a name-sorted list (`getmembers` returns members sorted
by name). -/
def insertByName (m : Member) : List Member → List Member
  | [] => [m]
  | x :: xs =>
    if x.name < m.name then x :: insertByName m xs else m :: x :: xs

def sortMembers : List Member → List Member
  | [] => []
  | x :: xs => insertByName x (sortMembers xs)

/-- `check_functions = [func[1] for func in getmembers(ck, isfunction) if
func[1].__module__ == 'bulwark.checks']`, over a model `ms` of the
`bulwark.checks` module's members (that module is an external collaborator,
not under `src/`). -/
def check_functions (ms : List Member) : List Member :=
  (sortMembers ms).filter
    (fun m => m.isfunction && (m.module == "bulwark.checks"))

/-- `decorator_factory(decorator_name, func)`: the generated class is
`BaseDecorator` with `check_func` bound to `func`; constructing an instance
runs `BaseDecorator.__init__`. -/
def decorator_factory (func : PyFunc) :
    List Val → Dict → Except PyErr BaseDecorator :=
  fun args kwargs => BaseDecorator.init func args kwargs

/-- What a module attribute produced at import time can hold: the decorator
class generated for the check function of a given name, or the hand-written
`CustomCheck` class defined below the generation loop. -/
inductive RegEntry where
  | generated (checkName : String)
  | customClass
  deriving DecidableEq, Repr

/-- Module initialization: the `for func in check_functions:` loop of
`setattr(this_module, snake_to_camel(func.__name__), decorator_factory(...))`,
followed by the `class CustomCheck` statement, which rebinds the name
`CustomCheck` (the code comments that it purposefully overwrites the
auto-generated `CustomCheck`). -/
def moduleInit (ms : List Member) : KV RegEntry :=
  dictUpdate
    ((check_functions ms).foldl
      (fun r m => dictUpdate r (snake_to_camel m.name) (RegEntry.generated m.name))
      [])
    "CustomCheck" RegEntry.customClass

/-- The state of a `CustomCheck` instance after `__init__`: `enabled`, the
resolved user-supplied check function, and `check_func_params` (the dict
forwarded as keyword arguments to `ck.custom_check`). -/
structure CustomCheck where
  enabled : Val
  check_func : PyFunc
  check_func_params : Dict

/-- `CustomCheck.__init__(*args, **kwargs)`: pop `enabled`; *get* (not pop)
`check_func` from the remaining kwargs; if that is truthy it is the check
function and all positional args are configuration, otherwise `args[0]` is
the check function (IndexError on no args) and the rest are configuration;
zip the configuration onto the check function's declared parameters minus
the first and update with the remaining kwargs (which still contain
`check_func` when it was supplied by keyword). -/
def CustomCheck.init (heap : Nat → PyFunc) (args : List Val) (kwargs : Dict) :
    Except PyErr CustomCheck :=
  let enabled := (aLookup kwargs "enabled").getD (Val.bool true)
  let kwargs1 := dictRemove kwargs "enabled"
  let cfv := (aLookup kwargs1 "check_func").getD Val.none
  if cfv.truthy then
    match resolveFn heap cfv with
    | Except.error e => Except.error e
    | Except.ok cf =>
      Except.ok
        { enabled := enabled
          check_func := cf
          check_func_params :=
            dictUpdates
              (listToDict
                (List.zip ((cf.params.map (fun p => p.1)).drop 1) args))
              kwargs1 }
  else
    match args with
    | [] => Except.error (PyErr.indexError "tuple index out of range")
    | a :: rest =>
      match resolveFn heap a with
      | Except.error e => Except.error e
      | Except.ok cf =>
        Except.ok
          { enabled := enabled
            check_func := cf
            check_func_params :=
              dictUpdates
                (listToDict
                  (List.zip ((cf.params.map (fun p => p.1)).drop 1) rest))
                kwargs1 }

/-- Modelled from the spec: `bulwark.checks.custom_check` is not under
`src/`.  §4.4 says the wrapped call invokes "the registered generic
custom-check entry point with the result, the CheckOperation, and the bound
configuration", and §6 gives the check calling convention
`operation(value, **namedParams) -> None`, raising on failure: so the entry
point calls the user's check operation with the checked value first and the
configuration as keyword arguments, propagating whatever it raises. -/
def custom_check (df : Val) (cf : PyFunc) (kwargs : Dict) :
    Except PyErr Unit :=
  match pyCall cf [df] kwargs with
  | Except.error e => Except.error e
  | Except.ok _ => Except.ok ()

/-- One invocation of `CustomCheck`'s `decorated(*args, **kwargs)`: always
call the target first; if enabled, run
`ck.custom_check(df, self.check_func, **self.check_func_params)`;
return the target's result. -/
def CustomCheck.invoke (c : CustomCheck) (f : PyFunc) (args : List Val)
    (kwargs : Dict) : List Event × Except PyErr Val :=
  match pyCall f args kwargs with
  | Except.error e => ([Event.targetCall], Except.error e)
  | Except.ok df =>
    if c.enabled.truthy then
      ([Event.targetCall, Event.checkCall c.check_func_params],
       (custom_check df c.check_func c.check_func_params).map (fun _ => df))
    else ([Event.targetCall], Except.ok df)

/-- A check operation that always raises (used to observe whether the check
fires). -/
def alwaysFail : PyFunc :=
  { name := "always_fail"
    params := [("df", some Val.none)]
    impl := fun _ => Except.error (PyErr.checkError "check failed") }

/-- A check operation that always passes. -/
def passCheck : PyFunc :=
  { name := "pass_check"
    params := [("df", some Val.none)]
    impl := fun _ => Except.ok Val.none }

/-- A check operation with one extra configuration parameter `p`. -/
def chkP : PyFunc :=
  { name := "chk_p"
    params := [("df", some Val.none), ("p", some (Val.int 0))]
    impl := fun _ => Except.ok Val.none }

/-- A check operation whose configuration parameter is literally named
`enabled`. -/
def chkE : PyFunc :=
  { name := "chk_e"
    params := [("df", some Val.none), ("enabled", some (Val.bool true))]
    impl := fun _ => Except.ok Val.none }

/-- A check operation whose FIRST parameter is `x` (not `df`) but which
declares an optional parameter named `df` later. -/
def chk0 : PyFunc :=
  { name := "chk0"
    params := [("x", some (Val.int 0)), ("df", some Val.none)]
    impl := fun _ => Except.ok Val.none }

/-- A check operation that declares no parameter named `df` at all. -/
def cNoDf : PyFunc :=
  { name := "c_no_df"
    params := [("x", Option.none)]
    impl := fun _ => Except.ok Val.none }

/-- A target function with no parameters returning `7`. -/
def tConst7 : PyFunc :=
  { name := "t7"
    params := []
    impl := fun _ => Except.ok (Val.int 7) }

/-- A target function with no parameters returning the tuple `(1, 2)`. -/
def tPair : PyFunc :=
  { name := "t_pair"
    params := []
    impl := fun _ => Except.ok (Val.tuple [Val.int 1, Val.int 2]) }

/-- A target function with no parameters returning the non-tuple `7`. -/
def tNonTuple : PyFunc := tConst7

/-- `def g(x): return x` — `x` is required (no default). -/
def gReq : PyFunc :=
  { name := "g"
    params := [("x", Option.none)]
    impl := fun b => Except.ok ((aLookup b "x").getD Val.none) }

/-- `def f(x=None): return x`. -/
def gOpt : PyFunc :=
  { name := "f"
    params := [("x", some Val.none)]
    impl := fun b => Except.ok ((aLookup b "x").getD Val.none) }

/-- A function-object environment for the opaque `Val.fn` references. -/
def heap0 : Nat → PyFunc :=
  fun n => match n with
  | 0 => chkP
  | _ => chkE

/-- A disabled wrapper around an always-raising check. -/
def dRetOff : BaseDecorator :=
  { check_func := alwaysFail
    enabled := Val.bool false
    params := []
    attrs := [] }

/-- An enabled wrapper around an always-raising check, locator absent
(return-value mode). -/
def dRet : BaseDecorator :=
  { check_func := alwaysFail
    enabled := Val.bool true
    params := []
    attrs := [] }

/-- An enabled wrapper around a passing check, locator absent. -/
def dOk : BaseDecorator :=
  { check_func := passCheck
    enabled := Val.bool true
    params := []
    attrs := [] }

/-- An enabled wrapper with integer locator `1`. -/
def dInt : BaseDecorator :=
  { check_func := passCheck
    enabled := Val.bool true
    params := []
    attrs := [("df", Val.int 1)] }

/-- An enabled wrapper with string locator `"y"`. -/
def dStrY : BaseDecorator :=
  { check_func := passCheck
    enabled := Val.bool true
    params := []
    attrs := [("df", Val.str "y")] }

/-- An enabled wrapper with string locator `"x"`. -/
def dStrX : BaseDecorator :=
  { check_func := passCheck
    enabled := Val.bool true
    params := []
    attrs := [("df", Val.str "x")] }

/-- An enabled wrapper whose check declares no `df` parameter. -/
def dNoDf : BaseDecorator :=
  { check_func := cNoDf
    enabled := Val.bool true
    params := []
    attrs := [] }

/-- A disabled custom-check wrapper around an always-raising check. -/
def ccOff : CustomCheck :=
  { enabled := Val.bool false
    check_func := alwaysFail
    check_func_params := [] }

/-- An enabled custom-check wrapper around a passing check. -/
def ccOn : CustomCheck :=
  { enabled := Val.bool true
    check_func := passCheck
    check_func_params := [] }

/-- Member fixtures for the registry model. -/
def mHasNans : Member :=
  { name := "has_no_nans"
    isfunction := true
    module := "bulwark.checks"
    fn := passCheck }

def mCustomCheck : Member :=
  { name := "custom_check"
    isfunction := true
    module := "bulwark.checks"
    fn := passCheck }

/-- The `CustomCheck` state produced by
`CustomCheck(check_func=<fn 0>, p=1)`. -/
def c8c : CustomCheck :=
  { enabled := Val.bool true
    check_func := chkP
    check_func_params := [("check_func", Val.fn 0), ("p", Val.int 1)] }

theorem aLookup_dictUpdate {α : Type} (d : KV α) (k k' : String) (v : α) :
    aLookup (dictUpdate d k v) k' = if k = k' then some v else aLookup d k' := by
  induction d with
  | nil => simp [dictUpdate, aLookup]
  | cons p rest ih =>
    obtain ⟨k0, v0⟩ := p
    by_cases h0 : k0 = k
    · subst h0
      by_cases h2 : k0 = k' <;> simp [dictUpdate, aLookup, h2]
    · by_cases h1 : k0 = k' <;> by_cases h2 : k = k' <;>
        simp_all [dictUpdate, aLookup, h0, h1, h2]

theorem aLookup_eq_none_of_not_mem {α : Type} (d : KV α) (k : String)
    (h : k ∉ d.map (fun p => p.1)) : aLookup d k = Option.none := by
  induction d with
  | nil => rfl
  | cons p rest ih =>
    simp only [List.map_cons, List.mem_cons] at h
    push_neg at h
    obtain ⟨h1, h2⟩ := h
    obtain ⟨k0, v0⟩ := p
    simp only [aLookup]
    rw [if_neg (fun hk => h1 hk.symm)]
    exact ih h2

theorem aLookup_some_mem {α : Type} {d : KV α} {k : String} {v : α}
    (h : aLookup d k = some v) : (k, v) ∈ d := by
  induction d with
  | nil => simp [aLookup] at h
  | cons p rest ih =>
    obtain ⟨k0, v0⟩ := p
    by_cases h0 : k0 = k
    · subst h0
      have hv : v0 = v := by simpa [aLookup] using h
      subst hv
      exact List.mem_cons_self _ _
    · simp only [aLookup, if_neg h0] at h
      exact List.mem_cons_of_mem _ (ih h)

theorem aLookup_dictUpdates_not_mem {α : Type} (d : KV α)
    (l : List (String × α)) (k : String) (h : k ∉ l.map (fun p => p.1)) :
    aLookup (dictUpdates d l) k = aLookup d k := by
  induction l generalizing d with
  | nil => rfl
  | cons p rest ih =>
    simp only [List.map_cons, List.mem_cons] at h
    push_neg at h
    obtain ⟨h1, h2⟩ := h
    simp only [dictUpdates, List.foldl_cons]
    rw [show List.foldl (fun acc q => dictUpdate acc q.1 q.2)
          (dictUpdate d p.1 p.2) rest
        = dictUpdates (dictUpdate d p.1 p.2) rest from rfl]
    rw [ih _ h2, aLookup_dictUpdate]
    exact if_neg (fun hk => h1 hk.symm)

theorem aLookup_dictUpdates_nodup {α : Type} (d : KV α)
    (l : List (String × α)) (k : String)
    (h : (l.map (fun p => p.1)).Nodup) :
    aLookup (dictUpdates d l) k
      = match aLookup l k with
        | some v => some v
        | Option.none => aLookup d k := by
  induction l generalizing d with
  | nil => rfl
  | cons p rest ih =>
    obtain ⟨k0, v0⟩ := p
    simp only [List.map_cons, List.nodup_cons] at h
    obtain ⟨h1, h2⟩ := h
    simp only [dictUpdates, List.foldl_cons]
    rw [show List.foldl (fun acc q => dictUpdate acc q.1 q.2)
          (dictUpdate d k0 v0) rest
        = dictUpdates (dictUpdate d k0 v0) rest from rfl]
    rw [ih _ h2]
    by_cases hk : k0 = k
    · subst hk
      rw [aLookup_eq_none_of_not_mem rest k0 h1]
      simp [aLookup, aLookup_dictUpdate]
    · simp only [aLookup, if_neg hk]
      cases hr : aLookup rest k
      · simp [aLookup_dictUpdate, hk]
      · rfl

theorem aLookup_dictRemove_self {α : Type} (d : KV α) (k : String) :
    aLookup (dictRemove d k) k = Option.none := by
  induction d with
  | nil => rfl
  | cons p rest ih =>
    obtain ⟨k0, v0⟩ := p
    by_cases h0 : k0 = k
    · simpa [dictRemove, h0] using ih
    · simpa [dictRemove, aLookup, h0] using ih

theorem aLookup_dictRemove_ne {α : Type} (d : KV α) (k k' : String)
    (h : k' ≠ k) : aLookup (dictRemove d k) k' = aLookup d k' := by
  induction d with
  | nil => rfl
  | cons p rest ih =>
    obtain ⟨k0, v0⟩ := p
    by_cases h0 : k0 = k
    · subst h0
      have h1 : ¬ (k0 = k') := fun hk => h hk.symm
      simpa [dictRemove, aLookup, h1] using ih
    · by_cases h1 : k0 = k'
      · subst h1
        simp [dictRemove, aLookup, h0]
      · simpa [dictRemove, aLookup, h0, h1] using ih

theorem fillParams_error {pos : KV Val} {kwargs : Dict}
    {ps : List (String × Option Val)} {e : PyErr}
    (h : fillParams pos kwargs ps = Except.error e) :
    ∃ m, e = PyErr.typeError m := by
  induction ps with
  | nil => simp [fillParams] at h
  | cons p rest ih =>
    obtain ⟨n, dflt⟩ := p
    simp only [fillParams] at h
    split at h
    · cases hr : fillParams pos kwargs rest with
      | error e2 =>
        rw [hr] at h
        simp only [Except.map, Except.error.injEq] at h
        subst h
        exact ih hr
      | ok r => rw [hr] at h; simp [Except.map] at h
    · split at h
      · cases hr : fillParams pos kwargs rest with
        | error e2 =>
          rw [hr] at h
          simp only [Except.map, Except.error.injEq] at h
          subst h
          exact ih hr
        | ok r => rw [hr] at h; simp [Except.map] at h
      · split at h
        · cases hr : fillParams pos kwargs rest with
          | error e2 =>
            rw [hr] at h
            simp only [Except.map, Except.error.injEq] at h
            subst h
            exact ih hr
          | ok r => rw [hr] at h; simp [Except.map] at h
        · cases h; exact ⟨_, rfl⟩

theorem bindArgs_error {params : List (String × Option Val)}
    {args : List Val} {kwargs : Dict} {e : PyErr}
    (h : bindArgs params args kwargs = Except.error e) :
    ∃ m, e = PyErr.typeError m := by
  unfold bindArgs at h
  split at h
  next e1 heq =>
    cases h
    unfold bindPositional at heq
    split at heq
    · cases heq; exact ⟨_, rfl⟩
    · cases heq
  next pos heq =>
    split at h
    next e1 heq2 =>
      cases h
      unfold checkMultiple at heq2
      split at heq2
      · cases heq2; exact ⟨_, rfl⟩
      · cases heq2
    next u heq2 =>
      split at h
      next e1 heq3 =>
        cases h
        exact fillParams_error heq3
      next bound heq3 =>
        split at h
        next e1 heq4 =>
          cases h
          unfold checkUnexpected at heq4
          split at heq4
          · cases heq4; exact ⟨_, rfl⟩
          · cases heq4
        next u2 heq4 => cases h

theorem bindArgs_ok_keys {params : List (String × Option Val)}
    {args : List Val} {kwargs : Dict} {b : KV Val}
    (h : bindArgs params args kwargs = Except.ok b) :
    ∀ p ∈ kwargs, (params.map (fun q => q.1)).contains p.1 = true := by
  intro p hp
  unfold bindArgs at h
  split at h
  next e1 heq => cases h
  next pos heq =>
    split at h
    next e1 heq2 => cases h
    next u heq2 =>
      split at h
      next e1 heq3 => cases h
      next bound heq3 =>
        split at h
        next e1 heq4 => cases h
        next u2 heq4 =>
          unfold checkUnexpected at heq4
          split at heq4
          next q heqf => cases heq4
          next heqf =>
            have := List.find?_eq_none.mp heqf p hp
            simpa using this

/-- The value a sequence of rebinding writes leaves behind: the last
element of the list, if any. -/
def lastEntry {α : Type} : List α → Option α
  | [] => Option.none
  | x :: xs =>
    match lastEntry xs with
    | some y => some y
    | Option.none => some x

theorem lastEntry_mem {α : Type} {l : List α} {x : α}
    (h : lastEntry l = some x) : x ∈ l := by
  induction l with
  | nil => simp [lastEntry] at h
  | cons y ys ih =>
    simp only [lastEntry] at h
    cases hl : lastEntry ys with
    | some z =>
      rw [hl] at h
      cases h
      exact List.mem_cons_of_mem _ (ih hl)
    | none =>
      rw [hl] at h
      cases h
      exact List.mem_cons_self _ _

theorem lastEntry_ne_none {α : Type} {l : List α} (h : l ≠ []) :
    lastEntry l ≠ Option.none := by
  cases l with
  | nil => exact absurd rfl h
  | cons x xs =>
    simp only [lastEntry]
    cases lastEntry xs <;> simp

theorem regFold_lookup (ms : List Member) (d : KV RegEntry) (K : String) :
    aLookup
      (ms.foldl
        (fun r m => dictUpdate r (snake_to_camel m.name) (RegEntry.generated m.name))
        d) K
    = match lastEntry (ms.filter (fun m => snake_to_camel m.name == K)) with
      | some m => some (RegEntry.generated m.name)
      | Option.none => aLookup d K := by
  induction ms generalizing d with
  | nil => rfl
  | cons m rest ih =>
    simp only [List.foldl_cons, List.filter_cons]
    by_cases hm : snake_to_camel m.name = K
    · simp only [hm, beq_self_eq_true, if_true, lastEntry]
      rw [ih]
      cases hl : lastEntry (rest.filter (fun m2 => snake_to_camel m2.name == K)) with
      | some m2 => rfl
      | none => simp [aLookup_dictUpdate, hm]
    · have : (snake_to_camel m.name == K) = false := by
        simpa using hm
      simp only [this, Bool.false_eq_true, if_false]
      rw [ih]
      cases hl : lastEntry (rest.filter (fun m2 => snake_to_camel m2.name == K)) with
      | some m2 => rfl
      | none => simp [aLookup_dictUpdate, hm]

theorem invokeRet_fail {heap : Nat → PyFunc} {d : BaseDecorator} {f : PyFunc}
    {args : List Val} {kwargs : Dict} {kw : Dict} {e : PyErr}
    (hin : Event.checkCall kw ∈ (BaseDecorator.invokeRet heap d f args kwargs).1)
    (hfail : callCheck heap d kw = Except.error e) :
    (BaseDecorator.invokeRet heap d f args kwargs).2 = Except.error e ∧
    (BaseDecorator.invokeRet heap d f args kwargs).1.head? = some Event.targetCall := by
  cases hp : pyCall f args kwargs with
  | error e1 =>
    simp only [BaseDecorator.invokeRet, hp] at hin
    simp at hin
  | ok res =>
    simp only [BaseDecorator.invokeRet, hp] at hin ⊢
    simp only [List.mem_cons, List.mem_singleton, List.not_mem_nil,
      or_false] at hin
    rcases hin with hin | hin
    · exact absurd hin (by simp)
    · have hkw : kw = dictUpdate (checkKwargs d.attrs) "df" res := by
        injection hin
      subst hkw
      rw [hfail]
      exact ⟨rfl, rfl⟩

theorem invokeInt_fail {heap : Nat → PyFunc} {d : BaseDecorator} {f : PyFunc}
    {i : Int} {args : List Val} {kwargs : Dict} {kw : Dict} {e : PyErr}
    (hin : Event.checkCall kw ∈ (BaseDecorator.invokeInt heap d f i args kwargs).1)
    (hfail : callCheck heap d kw = Except.error e) :
    (BaseDecorator.invokeInt heap d f i args kwargs).2 = Except.error e ∧
    (BaseDecorator.invokeInt heap d f i args kwargs).1.head? = some Event.targetCall := by
  cases hp : pyCall f args kwargs with
  | error e1 =>
    simp only [BaseDecorator.invokeInt, hp] at hin
    simp at hin
  | ok res =>
    cases res with
    | tuple elems =>
      cases hx : pyIndex elems i with
      | error e1 =>
        simp only [BaseDecorator.invokeInt, hp, hx] at hin
        simp at hin
      | ok v =>
        simp only [BaseDecorator.invokeInt, hp, hx] at hin ⊢
        simp only [List.mem_cons, List.mem_singleton, List.not_mem_nil,
          or_false] at hin
        rcases hin with hin | hin
        · exact absurd hin (by simp)
        · have hkw : kw = dictUpdate (checkKwargs d.attrs) "df" v := by
            injection hin
          subst hkw
          rw [hfail]
          exact ⟨rfl, rfl⟩
    | none => simp only [BaseDecorator.invokeInt, hp] at hin; simp at hin
    | bool b => simp only [BaseDecorator.invokeInt, hp] at hin; simp at hin
    | int n => simp only [BaseDecorator.invokeInt, hp] at hin; simp at hin
    | str s => simp only [BaseDecorator.invokeInt, hp] at hin; simp at hin
    | fn t => simp only [BaseDecorator.invokeInt, hp] at hin; simp at hin

theorem invokeStr_fail {heap : Nat → PyFunc} {d : BaseDecorator} {f : PyFunc}
    {s : String} {args : List Val} {kwargs : Dict} {kw : Dict} {e : PyErr}
    (hin : Event.checkCall kw ∈ (BaseDecorator.invokeStr heap d f s args kwargs).1)
    (hfail : callCheck heap d kw = Except.error e) :
    (BaseDecorator.invokeStr heap d f s args kwargs).2 = Except.error e ∧
    Event.targetCall ∉ (BaseDecorator.invokeStr heap d f s args kwargs).1 := by
  cases hd : get_arg_default f s with
  | error e1 =>
    simp only [BaseDecorator.invokeStr, hd] at hin
    simp at hin
  | ok dflt =>
    cases hv : get_arg_value f s args kwargs with
    | error e1 =>
      simp only [BaseDecorator.invokeStr, hd, hv] at hin
      simp at hin
    | ok v =>
      by_cases hc : (isinstanceParameterEmpty dflt || !v.isNone) = true
      · cases hcc : callCheck heap d (dictUpdate (checkKwargs d.attrs) "df" v) with
        | error e1 =>
          simp only [BaseDecorator.invokeStr, hd, hv, hc, if_true, hcc] at hin ⊢
          simp only [List.mem_singleton] at hin
          have hkw : kw = dictUpdate (checkKwargs d.attrs) "df" v := by
            injection hin
          subst hkw
          rw [hfail] at hcc
          cases hcc
          constructor
          · rfl
          · simp
        | ok u =>
          simp only [BaseDecorator.invokeStr, hd, hv, hc, if_true, hcc] at hin ⊢
          simp only [List.mem_cons, List.mem_singleton, List.not_mem_nil,
            or_false] at hin
          rcases hin with hin | hin
          · have hkw : kw = dictUpdate (checkKwargs d.attrs) "df" v := by
              injection hin
            subst hkw
            rw [hfail] at hcc
            cases hcc
          · exact absurd hin (by simp)
      · simp only [BaseDecorator.invokeStr, hd, hv, hc, if_false] at hin
        simp at hin

theorem invokeRet_ok {heap : Nat → PyFunc} {d : BaseDecorator} {f : PyFunc}
    {args : List Val} {kwargs : Dict} {v : Val}
    (h : (BaseDecorator.invokeRet heap d f args kwargs).2 = Except.ok v) :
    pyCall f args kwargs = Except.ok v := by
  cases hp : pyCall f args kwargs with
  | error e1 =>
    simp only [BaseDecorator.invokeRet, hp] at h
    cases h
  | ok res =>
    simp only [BaseDecorator.invokeRet, hp] at h
    cases hcc : callCheck heap d (dictUpdate (checkKwargs d.attrs) "df" res) with
    | error e1 => rw [hcc] at h; simp [Except.map] at h
    | ok u =>
      rw [hcc] at h
      simp only [Except.map, Except.ok.injEq] at h
      rw [h]

theorem invokeInt_ok {heap : Nat → PyFunc} {d : BaseDecorator} {f : PyFunc}
    {i : Int} {args : List Val} {kwargs : Dict} {v : Val}
    (h : (BaseDecorator.invokeInt heap d f i args kwargs).2 = Except.ok v) :
    pyCall f args kwargs = Except.ok v := by
  cases hp : pyCall f args kwargs with
  | error e1 =>
    simp only [BaseDecorator.invokeInt, hp] at h
    cases h
  | ok res =>
    cases res with
    | tuple elems =>
      cases hx : pyIndex elems i with
      | error e1 =>
        simp only [BaseDecorator.invokeInt, hp, hx] at h
        cases h
      | ok w =>
        simp only [BaseDecorator.invokeInt, hp, hx] at h
        cases hcc : callCheck heap d (dictUpdate (checkKwargs d.attrs) "df" w) with
        | error e1 => rw [hcc] at h; simp [Except.map] at h
        | ok u =>
          rw [hcc] at h
          simp only [Except.map, Except.ok.injEq] at h
          rw [h]
    | none => simp only [BaseDecorator.invokeInt, hp] at h; cases h
    | bool b => simp only [BaseDecorator.invokeInt, hp] at h; cases h
    | int n => simp only [BaseDecorator.invokeInt, hp] at h; cases h
    | str s2 => simp only [BaseDecorator.invokeInt, hp] at h; cases h
    | fn t => simp only [BaseDecorator.invokeInt, hp] at h; cases h

theorem invokeStr_ok {heap : Nat → PyFunc} {d : BaseDecorator} {f : PyFunc}
    {s : String} {args : List Val} {kwargs : Dict} {v : Val}
    (h : (BaseDecorator.invokeStr heap d f s args kwargs).2 = Except.ok v) :
    pyCall f args kwargs = Except.ok v := by
  cases hd : get_arg_default f s with
  | error e1 =>
    simp only [BaseDecorator.invokeStr, hd] at h
    cases h
  | ok dflt =>
    cases hv : get_arg_value f s args kwargs with
    | error e1 =>
      simp only [BaseDecorator.invokeStr, hd, hv] at h
      cases h
    | ok w =>
      by_cases hc : (isinstanceParameterEmpty dflt || !w.isNone) = true
      · cases hcc : callCheck heap d (dictUpdate (checkKwargs d.attrs) "df" w) with
        | error e1 =>
          simp only [BaseDecorator.invokeStr, hd, hv, hc, if_true, hcc] at h
          cases h
        | ok u =>
          simpa only [BaseDecorator.invokeStr, hd, hv, hc, if_true, hcc] using h
      · simpa only [BaseDecorator.invokeStr, hd, hv, hc, if_false] using h

theorem customInvoke_ok {c : CustomCheck} {f : PyFunc} {args : List Val}
    {kwargs : Dict} {v : Val}
    (h : (CustomCheck.invoke c f args kwargs).2 = Except.ok v) :
    pyCall f args kwargs = Except.ok v := by
  cases hp : pyCall f args kwargs with
  | error e1 =>
    simp only [CustomCheck.invoke, hp] at h
    cases h
  | ok df =>
    simp only [CustomCheck.invoke, hp] at h
    by_cases he : c.enabled.truthy = true
    · simp only [he, if_true] at h
      cases hcc : custom_check df c.check_func c.check_func_params with
      | error e1 => rw [hcc] at h; simp [Except.map] at h
      | ok u =>
        rw [hcc] at h
        simp only [Except.map, Except.ok.injEq] at h
        rw [h]
    · simp [he] at h
      rw [h]

/-- C1: the claim says the string-locator check runs iff the parameter is
required or its bound value is not None, and in particular that a required
parameter is always checked even when the caller explicitly passes None.
The code disagrees: `isinstance(df_default, Parameter.empty)` is always
False (the sentinel is the `_empty` class itself, not an instance of it),
so the check runs iff the bound value is not None.  This theorem evaluates
the code at the failing input: `def g(x): return x` (x required) wrapped
with an always-raising check on `df="x"`; called with `x=None` the check is
silently skipped and the call returns None (the claim demands it raise),
while called with `x=5` the check fires and raises.  -/
theorem c1_required_param_none_skips_check :
    (BaseDecorator.init alwaysFail [] [("df", Val.str "x")]).map
        (fun d => (BaseDecorator.invoke heap0 d gReq [] [("x", Val.none)],
                   BaseDecorator.invoke heap0 d gReq [] [("x", Val.int 5)]))
      = Except.ok
          (([Event.targetCall], Except.ok Val.none),
           ([Event.checkCall [("df", Val.int 5)]],
            Except.error (PyErr.checkError "check failed"))) := rfl

/-- C4: for every construction of a registry-generated wrapper, if the
configured locator's type is not one of {None, int, str} construction
raises a `TypeError` (whose message, `dfTypeMsg`, enumerates the three
valid meanings) before any target is wrapped; if the locator type is
allowed construction succeeds with no other validation of the locator; an
absent locator is treated as None and construction succeeds. -/
theorem c4_locator_type_validation (cf : PyFunc) (args : List Val)
    (kwargs : Dict) :
    ((BaseDecorator.initLocator cf args kwargs).pyType ∉ dfAllowedTypes →
      BaseDecorator.init cf args kwargs
        = Except.error (PyErr.typeError
            (dfTypeMsg (BaseDecorator.initLocator cf args kwargs).pyType)))
    ∧ ((BaseDecorator.initLocator cf args kwargs).pyType ∈ dfAllowedTypes →
      BaseDecorator.init cf args kwargs
        = Except.ok
            { check_func := cf
              enabled := BaseDecorator.initEnabled cf args kwargs
              params := (cf.params.map (fun p => p.1)).drop 1
              attrs := BaseDecorator.initAttrs cf args kwargs })
    ∧ (aLookup (BaseDecorator.initAttrs cf args kwargs) "df" = Option.none →
      ∃ d2, BaseDecorator.init cf args kwargs = Except.ok d2) := by
  refine ⟨?_, ?_, ?_⟩
  · intro h
    unfold BaseDecorator.init
    rw [if_neg h]
  · intro h
    unfold BaseDecorator.init
    rw [if_pos h]
  · intro h
    have hl : BaseDecorator.initLocator cf args kwargs = Val.none := by
      unfold BaseDecorator.initLocator
      rw [h]
      rfl
    refine ⟨{ check_func := cf
              enabled := BaseDecorator.initEnabled cf args kwargs
              params := (cf.params.map (fun p => p.1)).drop 1
              attrs := BaseDecorator.initAttrs cf args kwargs }, ?_⟩
    unfold BaseDecorator.init
    rw [if_pos (by rw [hl]; simp [Val.pyType, dfAllowedTypes])]

/-- Witness for C4: a tuple-valued locator makes construction fail with the
enumerating `TypeError`; with no locator configured, construction
succeeds. -/
theorem c4_locator_type_validation_witness :
    BaseDecorator.init passCheck [] [("df", Val.tuple [])]
      = Except.error (PyErr.typeError (dfTypeMsg PyType.tuple))
    ∧ ∃ d2, BaseDecorator.init passCheck [] [] = Except.ok d2 := by
  constructor
  · exact (c4_locator_type_validation passCheck [] [("df", Val.tuple [])]).1
      (by simp [BaseDecorator.initLocator, BaseDecorator.initAttrs,
        dictUpdates, listToDict, dictRemove, dictUpdate, aLookup,
        Val.pyType, dfAllowedTypes])
  · exact (c4_locator_type_validation passCheck [] []).2.2 rfl

/-- C5: for every wrapper with a string locator `s` and every target `f`,
applying the wrapper (`BaseDecorator.__call__`) raises a `NameError` at
wrap time — before any call of the wrapped callable — iff `s` is not the
name of a declared parameter of `f`; otherwise wrapping succeeds. -/
theorem c5_wrap_time_name_validation (d : BaseDecorator) (f : PyFunc)
    (s : String) (hloc : aLookup d.attrs "df" = some (Val.str s)) :
    (BaseDecorator.call d f = Except.error (PyErr.nameError (nameErrMsg s f))
       ↔ has_arg_name s f = false)
    ∧ (has_arg_name s f = true → BaseDecorator.call d f = Except.ok (d, f)) := by
  have hcall : BaseDecorator.call d f
      = if has_arg_name s f then Except.ok (d, f)
        else Except.error (PyErr.nameError (nameErrMsg s f)) := by
    simp only [BaseDecorator.call, hloc]
  constructor
  · constructor
    · intro h
      by_cases hn : has_arg_name s f = true
      · rw [hcall, if_pos hn] at h
        cases h
      · simpa using hn
    · intro h
      rw [hcall, if_neg (by simp [h])]
  · intro h
    rw [hcall, if_pos h]

/-- Witness for C5: wrapping `def g(x)` with locator `"y"` raises the
`NameError` at wrap time; with locator `"x"` wrapping succeeds. -/
theorem c5_wrap_time_name_validation_witness :
    BaseDecorator.call dStrY gReq
      = Except.error (PyErr.nameError (nameErrMsg "y" gReq))
    ∧ BaseDecorator.call dStrX gReq = Except.ok (dStrX, gReq) := by
  constructor
  · exact (c5_wrap_time_name_validation dStrY gReq "y" rfl).1.mpr rfl
  · exact (c5_wrap_time_name_validation dStrX gReq "x" rfl).2 rfl

/-- C6: for every wrapper (registry-generated or custom) whose `enabled`
flag is falsy, invoking the wrapped callable returns exactly what the
unwrapped target returns and the check operation is never invoked (the
trace holds only the target call). -/
theorem c6_disabled_bypass (heap : Nat → PyFunc) (d : BaseDecorator)
    (c : CustomCheck) (f : PyFunc) (args : List Val) (kwargs : Dict)
    (hd : d.enabled.truthy = false) (hc : c.enabled.truthy = false) :
    BaseDecorator.invoke heap d f args kwargs
      = ([Event.targetCall], pyCall f args kwargs)
    ∧ CustomCheck.invoke c f args kwargs
      = ([Event.targetCall], pyCall f args kwargs) := by
  constructor
  · unfold BaseDecorator.invoke
    rw [if_pos hd]
  · cases hp : pyCall f args kwargs with
    | error e => simp [CustomCheck.invoke, hp, hc]
    | ok v => simp [CustomCheck.invoke, hp, hc]

/-- Witness for C6: both disabled wrappers around an always-raising check
return the target's value `7` untouched with no check event. -/
theorem c6_disabled_bypass_witness :
    BaseDecorator.invoke heap0 dRetOff tConst7 [] []
      = ([Event.targetCall], Except.ok (Val.int 7))
    ∧ CustomCheck.invoke ccOff tConst7 [] []
      = ([Event.targetCall], Except.ok (Val.int 7)) := by
  have h := c6_disabled_bypass heap0 dRetOff ccOff tConst7 [] [] rfl rfl
  exact ⟨h.1.trans rfl, h.2.trans rfl⟩

/-- C3: for every enabled wrapper with an integer locator `i`, the target
is invoked first; a non-tuple result raises the mode's `TypeError` with the
check never invoked; a tuple result has element `i` (Python indexing:
negative indices count from the end, out-of-range propagates `IndexError`
with the check never invoked) passed to the check, and the whole tuple is
returned unchanged when the check passes. -/
theorem c3_int_locator (heap : Nat → PyFunc) (d : BaseDecorator) (f : PyFunc)
    (i : Int) (args : List Val) (kwargs : Dict)
    (hloc : aLookup d.attrs "df" = some (Val.int i))
    (hen : d.enabled.truthy = true) :
    (∀ e, pyCall f args kwargs = Except.error e →
        BaseDecorator.invoke heap d f args kwargs
          = ([Event.targetCall], Except.error e))
    ∧ (∀ res, pyCall f args kwargs = Except.ok res →
        res.pyType ≠ PyType.tuple →
        BaseDecorator.invoke heap d f args kwargs
          = ([Event.targetCall], Except.error (PyErr.typeError tupleErrMsg)))
    ∧ (∀ elems, pyCall f args kwargs = Except.ok (Val.tuple elems) →
        (∀ e, pyIndex elems i = Except.error e →
          BaseDecorator.invoke heap d f args kwargs
            = ([Event.targetCall], Except.error e))
        ∧ (∀ v, pyIndex elems i = Except.ok v →
          BaseDecorator.invoke heap d f args kwargs
            = ([Event.targetCall,
                Event.checkCall (dictUpdate (checkKwargs d.attrs) "df" v)],
               (callCheck heap d (dictUpdate (checkKwargs d.attrs) "df" v)).map
                 (fun _ => Val.tuple elems)))) := by
  have hinv : BaseDecorator.invoke heap d f args kwargs
      = BaseDecorator.invokeInt heap d f i args kwargs := by
    unfold BaseDecorator.invoke
    rw [if_neg (by simp [hen]), hloc]
  refine ⟨?_, ?_, ?_⟩
  · intro e he
    rw [hinv]
    simp only [BaseDecorator.invokeInt, he]
  · intro res hres hnt
    rw [hinv]
    cases res with
    | tuple el => exact absurd rfl hnt
    | none => simp only [BaseDecorator.invokeInt, hres]
    | bool b => simp only [BaseDecorator.invokeInt, hres]
    | int n => simp only [BaseDecorator.invokeInt, hres]
    | str s2 => simp only [BaseDecorator.invokeInt, hres]
    | fn t => simp only [BaseDecorator.invokeInt, hres]
  · intro elems he
    constructor
    · intro e hx
      rw [hinv]
      simp only [BaseDecorator.invokeInt, he, hx]
    · intro v hx
      rw [hinv]
      simp only [BaseDecorator.invokeInt, he, hx]

/-- Witness for C3: with locator `1` on a target returning `(1, 2)` the
check receives exactly element `2` and the tuple is returned unchanged;
against a target returning the non-tuple `7` the mode's `TypeError` is
raised with no check event. -/
theorem c3_int_locator_witness :
    BaseDecorator.invoke heap0 dInt tPair [] []
      = ([Event.targetCall, Event.checkCall [("df", Val.int 2)]],
         Except.ok (Val.tuple [Val.int 1, Val.int 2]))
    ∧ BaseDecorator.invoke heap0 dInt tConst7 [] []
      = ([Event.targetCall], Except.error (PyErr.typeError tupleErrMsg)) := by
  constructor
  · have h := ((c3_int_locator heap0 dInt tPair 1 [] [] rfl rfl).2.2
      [Val.int 1, Val.int 2] rfl).2 (Val.int 2) rfl
    exact h.trans rfl
  · exact (c3_int_locator heap0 dInt tConst7 1 [] [] rfl rfl).2.1
      (Val.int 7) rfl (by decide)

/-- C2: for every enabled wrapper and every call in which the check
operation is invoked and raises: the error propagates unchanged out of the
wrapped call (nothing is caught); with a string locator the target is never
invoked for that call (the check runs strictly before it); with an absent /
None / integer locator the target call comes first in the trace, so its
already-computed result is discarded. -/
theorem c2_check_failure_propagation (heap : Nat → PyFunc)
    (d : BaseDecorator) (f : PyFunc) (args : List Val) (kwargs : Dict)
    (kw : Dict) (e : PyErr)
    (hin : Event.checkCall kw ∈ (BaseDecorator.invoke heap d f args kwargs).1)
    (hfail : callCheck heap d kw = Except.error e) :
    (BaseDecorator.invoke heap d f args kwargs).2 = Except.error e
    ∧ (∀ s, aLookup d.attrs "df" = some (Val.str s) →
        Event.targetCall ∉ (BaseDecorator.invoke heap d f args kwargs).1)
    ∧ ((aLookup d.attrs "df" = Option.none
        ∨ aLookup d.attrs "df" = some Val.none
        ∨ ∃ i, aLookup d.attrs "df" = some (Val.int i)) →
        (BaseDecorator.invoke heap d f args kwargs).1.head?
          = some Event.targetCall) := by
  by_cases hen : d.enabled.truthy = false
  · exfalso
    have heq : BaseDecorator.invoke heap d f args kwargs
        = ([Event.targetCall], pyCall f args kwargs) := by
      unfold BaseDecorator.invoke
      rw [if_pos hen]
    rw [heq] at hin
    simp at hin
  · cases hl : aLookup d.attrs "df" with
    | none =>
      have heq : BaseDecorator.invoke heap d f args kwargs
          = BaseDecorator.invokeRet heap d f args kwargs := by
        unfold BaseDecorator.invoke
        rw [if_neg hen, hl]
      rw [heq] at hin
      have hm := invokeRet_fail hin hfail
      rw [heq]
      refine ⟨hm.1, ?_, fun _ => hm.2⟩
      intro s hs
      cases hs
    | some val =>
      cases val with
      | none =>
        have heq : BaseDecorator.invoke heap d f args kwargs
            = BaseDecorator.invokeRet heap d f args kwargs := by
          unfold BaseDecorator.invoke
          rw [if_neg hen, hl]
        rw [heq] at hin
        have hm := invokeRet_fail hin hfail
        rw [heq]
        refine ⟨hm.1, ?_, fun _ => hm.2⟩
        intro s hs
        exact absurd hs (by simp)
      | int i =>
        have heq : BaseDecorator.invoke heap d f args kwargs
            = BaseDecorator.invokeInt heap d f i args kwargs := by
          unfold BaseDecorator.invoke
          rw [if_neg hen, hl]
        rw [heq] at hin
        have hm := invokeInt_fail hin hfail
        rw [heq]
        refine ⟨hm.1, ?_, fun _ => hm.2⟩
        intro s hs
        exact absurd hs (by simp)
      | str s0 =>
        have heq : BaseDecorator.invoke heap d f args kwargs
            = BaseDecorator.invokeStr heap d f s0 args kwargs := by
          unfold BaseDecorator.invoke
          rw [if_neg hen, hl]
        rw [heq] at hin
        have hm := invokeStr_fail hin hfail
        rw [heq]
        refine ⟨hm.1, fun s hs => hm.2, ?_⟩
        intro hdisj
        rcases hdisj with hd1 | hd1 | ⟨i, hd1⟩ <;> exact absurd hd1 (by simp)
      | bool b =>
        exfalso
        have heq : BaseDecorator.invoke heap d f args kwargs
            = ([], Except.ok Val.none) := by
          unfold BaseDecorator.invoke
          rw [if_neg hen, hl]
        rw [heq] at hin
        simp at hin
      | tuple el =>
        exfalso
        have heq : BaseDecorator.invoke heap d f args kwargs
            = ([], Except.ok Val.none) := by
          unfold BaseDecorator.invoke
          rw [if_neg hen, hl]
        rw [heq] at hin
        simp at hin
      | fn t =>
        exfalso
        have heq : BaseDecorator.invoke heap d f args kwargs
            = ([], Except.ok Val.none) := by
          unfold BaseDecorator.invoke
          rw [if_neg hen, hl]
        rw [heq] at hin
        simp at hin

/-- Witness for C2: the always-raising check in return-value mode makes the
whole call raise its error, and the trace shows the target was called
first. -/
theorem c2_check_failure_propagation_witness :
    (BaseDecorator.invoke heap0 dRet tConst7 [] []).2
      = Except.error (PyErr.checkError "check failed")
    ∧ (BaseDecorator.invoke heap0 dRet tConst7 [] []).1.head?
      = some Event.targetCall := by
  have h := c2_check_failure_propagation heap0 dRet tConst7 [] []
    [("df", Val.int 7)] (PyErr.checkError "check failed")
    (List.mem_cons_of_mem _ (List.mem_cons_self _ _)) rfl
  exact ⟨h.1, h.2.2 (Or.inl rfl)⟩

/-- C7: for every validly configured wrapper (any of the three locator
modes) and the custom-check variant, whenever the wrapped call returns
without raising, the returned value is exactly what the unwrapped target
returns for the same arguments. -/
theorem c7_roundtrip (heap : Nat → PyFunc) (d : BaseDecorator)
    (c : CustomCheck) (f : PyFunc) (args : List Val) (kwargs : Dict)
    (v : Val)
    (hv : ((aLookup d.attrs "df").getD Val.none).pyType ∈ dfAllowedTypes) :
    ((BaseDecorator.invoke heap d f args kwargs).2 = Except.ok v →
      pyCall f args kwargs = Except.ok v)
    ∧ ((CustomCheck.invoke c f args kwargs).2 = Except.ok v →
      pyCall f args kwargs = Except.ok v) := by
  constructor
  · intro h
    by_cases hen : d.enabled.truthy = false
    · have heq : BaseDecorator.invoke heap d f args kwargs
          = ([Event.targetCall], pyCall f args kwargs) := by
        unfold BaseDecorator.invoke
        rw [if_pos hen]
      rw [heq] at h
      exact h
    · cases hl : aLookup d.attrs "df" with
      | none =>
        have heq : BaseDecorator.invoke heap d f args kwargs
            = BaseDecorator.invokeRet heap d f args kwargs := by
          unfold BaseDecorator.invoke
          rw [if_neg hen, hl]
        exact invokeRet_ok (heq ▸ h)
      | some val =>
        cases val with
        | none =>
          have heq : BaseDecorator.invoke heap d f args kwargs
              = BaseDecorator.invokeRet heap d f args kwargs := by
            unfold BaseDecorator.invoke
            rw [if_neg hen, hl]
          exact invokeRet_ok (heq ▸ h)
        | int i =>
          have heq : BaseDecorator.invoke heap d f args kwargs
              = BaseDecorator.invokeInt heap d f i args kwargs := by
            unfold BaseDecorator.invoke
            rw [if_neg hen, hl]
          exact invokeInt_ok (heq ▸ h)
        | str s =>
          have heq : BaseDecorator.invoke heap d f args kwargs
              = BaseDecorator.invokeStr heap d f s args kwargs := by
            unfold BaseDecorator.invoke
            rw [if_neg hen, hl]
          exact invokeStr_ok (heq ▸ h)
        | bool b =>
          rw [hl] at hv
          simp [Val.pyType, dfAllowedTypes] at hv
        | tuple el =>
          rw [hl] at hv
          simp [Val.pyType, dfAllowedTypes] at hv
        | fn t =>
          rw [hl] at hv
          simp [Val.pyType, dfAllowedTypes] at hv
  · exact customInvoke_ok

/-- Witness for C7: a passing check in return-value mode and a passing
custom check both hand back exactly the target's value `7`. -/
theorem c7_roundtrip_witness :
    pyCall tConst7 [] [] = Except.ok (Val.int 7)
    ∧ pyCall tConst7 [] [] = Except.ok (Val.int 7) := by
  have h := c7_roundtrip heap0 dOk ccOn tConst7 [] [] (Val.int 7)
    (by simp [dOk, aLookup, Val.pyType, dfAllowedTypes])
  exact ⟨h.1 rfl, h.2 rfl⟩

theorem invokeRet_event_shape {heap : Nat → PyFunc} {d : BaseDecorator}
    {f : PyFunc} {args : List Val} {kwargs : Dict} {kw : Dict}
    (hin : Event.checkCall kw ∈ (BaseDecorator.invokeRet heap d f args kwargs).1) :
    ∃ v, kw = dictUpdate (checkKwargs d.attrs) "df" v := by
  cases hp : pyCall f args kwargs with
  | error e =>
    simp only [BaseDecorator.invokeRet, hp] at hin
    simp at hin
  | ok res =>
    simp only [BaseDecorator.invokeRet, hp] at hin
    simp only [List.mem_cons, List.mem_singleton, List.not_mem_nil,
      or_false] at hin
    rcases hin with hin | hin
    · exact absurd hin (by simp)
    · exact ⟨res, by injection hin⟩

theorem invokeInt_event_shape {heap : Nat → PyFunc} {d : BaseDecorator}
    {f : PyFunc} {i : Int} {args : List Val} {kwargs : Dict} {kw : Dict}
    (hin : Event.checkCall kw ∈ (BaseDecorator.invokeInt heap d f i args kwargs).1) :
    ∃ v, kw = dictUpdate (checkKwargs d.attrs) "df" v := by
  cases hp : pyCall f args kwargs with
  | error e =>
    simp only [BaseDecorator.invokeInt, hp] at hin
    simp at hin
  | ok res =>
    cases res with
    | tuple elems =>
      cases hx : pyIndex elems i with
      | error e =>
        simp only [BaseDecorator.invokeInt, hp, hx] at hin
        simp at hin
      | ok v =>
        simp only [BaseDecorator.invokeInt, hp, hx] at hin
        simp only [List.mem_cons, List.mem_singleton, List.not_mem_nil,
          or_false] at hin
        rcases hin with hin | hin
        · exact absurd hin (by simp)
        · exact ⟨v, by injection hin⟩
    | none => simp only [BaseDecorator.invokeInt, hp] at hin; simp at hin
    | bool b => simp only [BaseDecorator.invokeInt, hp] at hin; simp at hin
    | int n => simp only [BaseDecorator.invokeInt, hp] at hin; simp at hin
    | str s2 => simp only [BaseDecorator.invokeInt, hp] at hin; simp at hin
    | fn t => simp only [BaseDecorator.invokeInt, hp] at hin; simp at hin

theorem invokeStr_event_shape {heap : Nat → PyFunc} {d : BaseDecorator}
    {f : PyFunc} {s : String} {args : List Val} {kwargs : Dict} {kw : Dict}
    (hin : Event.checkCall kw ∈ (BaseDecorator.invokeStr heap d f s args kwargs).1) :
    ∃ v, kw = dictUpdate (checkKwargs d.attrs) "df" v := by
  cases hd : get_arg_default f s with
  | error e =>
    simp only [BaseDecorator.invokeStr, hd] at hin
    simp at hin
  | ok dflt =>
    cases hv : get_arg_value f s args kwargs with
    | error e =>
      simp only [BaseDecorator.invokeStr, hd, hv] at hin
      simp at hin
    | ok v =>
      by_cases hc : (isinstanceParameterEmpty dflt || !v.isNone) = true
      · cases hcc : callCheck heap d (dictUpdate (checkKwargs d.attrs) "df" v) with
        | error e =>
          simp only [BaseDecorator.invokeStr, hd, hv, hc, if_true, hcc] at hin
          simp only [List.mem_singleton] at hin
          exact ⟨v, by injection hin⟩
        | ok u =>
          simp only [BaseDecorator.invokeStr, hd, hv, hc, if_true, hcc] at hin
          simp only [List.mem_cons, List.mem_singleton, List.not_mem_nil,
            or_false] at hin
          rcases hin with hin | hin
          · exact ⟨v, by injection hin⟩
          · exact absurd hin (by simp)
      · simp only [BaseDecorator.invokeStr, hd, hv, hc, if_false] at hin
        simp at hin

/-- C10, amended: whenever an enabled registry-generated wrapper invokes
the check operation, the check is called entirely with keyword arguments:
the checked value under the key `df` (overwriting the stored locator in the
forwarded configuration) together with every other construction-time
configuration entry except `check_func`, `enabled` and `params`; hence a
check operation that does not declare a parameter named `df` cannot be
invoked successfully — the call raises a binding `TypeError`. -/
theorem c10_check_called_by_keyword (heap : Nat → PyFunc)
    (d : BaseDecorator) (f : PyFunc) (args : List Val) (kwargs : Dict)
    (kw : Dict)
    (hin : Event.checkCall kw ∈ (BaseDecorator.invoke heap d f args kwargs).1) :
    (∃ v, kw = dictUpdate (checkKwargs d.attrs) "df" v)
    ∧ (∀ cf, BaseDecorator.effCheckFn heap d = Except.ok cf →
        "df" ∉ cf.params.map (fun p => p.1) →
        ∃ msg, callCheck heap d kw = Except.error (PyErr.typeError msg)) := by
  have hshape : ∃ v, kw = dictUpdate (checkKwargs d.attrs) "df" v := by
    by_cases hen : d.enabled.truthy = false
    · exfalso
      have heq : BaseDecorator.invoke heap d f args kwargs
          = ([Event.targetCall], pyCall f args kwargs) := by
        unfold BaseDecorator.invoke
        rw [if_pos hen]
      rw [heq] at hin
      simp at hin
    · cases hl : aLookup d.attrs "df" with
      | none =>
        have heq : BaseDecorator.invoke heap d f args kwargs
            = BaseDecorator.invokeRet heap d f args kwargs := by
          unfold BaseDecorator.invoke
          rw [if_neg hen, hl]
        exact invokeRet_event_shape (heq ▸ hin)
      | some val =>
        cases val with
        | none =>
          have heq : BaseDecorator.invoke heap d f args kwargs
              = BaseDecorator.invokeRet heap d f args kwargs := by
            unfold BaseDecorator.invoke
            rw [if_neg hen, hl]
          exact invokeRet_event_shape (heq ▸ hin)
        | int i =>
          have heq : BaseDecorator.invoke heap d f args kwargs
              = BaseDecorator.invokeInt heap d f i args kwargs := by
            unfold BaseDecorator.invoke
            rw [if_neg hen, hl]
          exact invokeInt_event_shape (heq ▸ hin)
        | str s =>
          have heq : BaseDecorator.invoke heap d f args kwargs
              = BaseDecorator.invokeStr heap d f s args kwargs := by
            unfold BaseDecorator.invoke
            rw [if_neg hen, hl]
          exact invokeStr_event_shape (heq ▸ hin)
        | bool b =>
          exfalso
          have heq : BaseDecorator.invoke heap d f args kwargs
              = ([], Except.ok Val.none) := by
            unfold BaseDecorator.invoke
            rw [if_neg hen, hl]
          rw [heq] at hin
          simp at hin
        | tuple el =>
          exfalso
          have heq : BaseDecorator.invoke heap d f args kwargs
              = ([], Except.ok Val.none) := by
            unfold BaseDecorator.invoke
            rw [if_neg hen, hl]
          rw [heq] at hin
          simp at hin
        | fn t =>
          exfalso
          have heq : BaseDecorator.invoke heap d f args kwargs
              = ([], Except.ok Val.none) := by
            unfold BaseDecorator.invoke
            rw [if_neg hen, hl]
          rw [heq] at hin
          simp at hin
  refine ⟨hshape, ?_⟩
  intro cf hcf hdf
  obtain ⟨v, hkw⟩ := hshape
  have hdfkw : aLookup kw "df" = some v := by
    rw [hkw, aLookup_dictUpdate]
    simp
  have hmem : ("df", v) ∈ kw := aLookup_some_mem hdfkw
  have hcc : callCheck heap d kw = runCheck cf kw := by
    unfold callCheck
    rw [hcf]
  cases hb : bindArgs cf.params [] kw with
  | ok b =>
    exfalso
    have hcont := bindArgs_ok_keys hb ("df", v) hmem
    have : "df" ∈ cf.params.map (fun p => p.1) := by
      simpa using hcont
    exact hdf this
  | error e =>
    obtain ⟨m, rfl⟩ := bindArgs_error hb
    refine ⟨m, ?_⟩
    rw [hcc]
    unfold runCheck pyCall
    rw [hb]

/-- Counterexample for C10 as stated: `chk0`'s FIRST parameter is `x`, not
`df`, yet (declaring an optional `df` later) it is invoked successfully
through a registry-generated wrapper — the wrapped call returns `ok 7`.
And a `check_func` configuration entry is NOT forwarded to the check (the
claim's exclusion list names only `enabled` and `params`): the check-call
event carries only `{"df": 7}`. -/
theorem c10_cex :
    ((BaseDecorator.init chk0 [] []).map
        (fun d => BaseDecorator.invoke heap0 d tConst7 [] [])
      = Except.ok
          ([Event.targetCall, Event.checkCall [("df", Val.int 7)]],
           Except.ok (Val.int 7)))
    ∧ ((BaseDecorator.init passCheck [] [("check_func", Val.fn 0)]).map
        (fun d => BaseDecorator.invoke heap0 d tConst7 [] [])
      = Except.ok
          ([Event.targetCall, Event.checkCall [("df", Val.int 7)]],
           Except.ok (Val.int 7))) := ⟨rfl, rfl⟩

/-- Witness for C10: through the wrapper whose check `cNoDf` declares no
parameter named `df`, the forwarded kwargs are `{"df": value}` and the
check call raises a binding `TypeError`. -/
theorem c10_check_called_by_keyword_witness :
    (∃ v, [("df", Val.int 7)] = dictUpdate (checkKwargs dNoDf.attrs) "df" v)
    ∧ ∃ msg, callCheck heap0 dNoDf [("df", Val.int 7)]
        = Except.error (PyErr.typeError msg) := by
  have h := c10_check_called_by_keyword heap0 dNoDf tConst7 [] []
    [("df", Val.int 7)]
    (List.mem_cons_of_mem _ (List.mem_cons_self _ _))
  exact ⟨h.1, h.2 cNoDf rfl (by simp [cNoDf])⟩

theorem dictRemove_keys_sublist {α : Type} (d : KV α) (k : String) :
    ((dictRemove d k).map (fun p => p.1)).Sublist (d.map (fun p => p.1)) := by
  induction d with
  | nil => simp [dictRemove]
  | cons p rest ih =>
    obtain ⟨k0, v0⟩ := p
    by_cases h0 : k0 = k
    · simp only [dictRemove, h0, if_pos rfl, List.map_cons]
      exact ih.trans (List.sublist_cons_self _ _)
    · simp only [dictRemove, if_neg h0, List.map_cons]
      exact List.Sublist.cons₂ _ ih

theorem dictRemove_keys_nodup {α : Type} (d : KV α) (k : String)
    (h : (d.map (fun p => p.1)).Nodup) :
    ((dictRemove d k).map (fun p => p.1)).Nodup :=
  h.sublist (dictRemove_keys_sublist d k)

theorem listToDict_lookup_none {α : Type} (l : List (String × α)) (k : String)
    (h : k ∉ l.map (fun p => p.1)) : aLookup (listToDict l) k = Option.none := by
  unfold listToDict
  rw [aLookup_dictUpdates_not_mem _ _ _ h]
  rfl

/-- C8, amended: if `check_func` is supplied as a truthy keyword argument
then all positional args are configuration values bound to the check
operation's declared parameter names minus the first, otherwise the first
positional argument becomes the check operation and the rest are the
configuration values; the remaining keyword arguments EXCLUDING ONLY
`enabled` (which is popped) are then overlaid — so the forwarded mapping
never receives `enabled` from the keyword arguments (it can only carry an
`enabled` key if the check operation itself declares such a configuration
parameter, bound positionally), but it DOES contain `check_func` whenever
that was supplied by keyword, because `check_func` is read with
`kwargs.get` and never removed. -/
theorem c8_custom_config (heap : Nat → PyFunc) (args : List Val)
    (kwargs : Dict) (c : CustomCheck)
    (hnd : (kwargs.map (fun p => p.1)).Nodup)
    (h : CustomCheck.init heap args kwargs = Except.ok c) :
    (∀ v, aLookup kwargs "check_func" = some v → v.truthy = true →
        resolveFn heap v = Except.ok c.check_func
      ∧ c.check_func_params
          = dictUpdates
              (listToDict
                (List.zip ((c.check_func.params.map (fun p => p.1)).drop 1) args))
              (dictRemove kwargs "enabled")
      ∧ aLookup c.check_func_params "check_func" = some v)
    ∧ (((aLookup kwargs "check_func").getD Val.none).truthy = false →
        ∃ a rest, args = a :: rest
        ∧ resolveFn heap a = Except.ok c.check_func
        ∧ c.check_func_params
            = dictUpdates
                (listToDict
                  (List.zip ((c.check_func.params.map (fun p => p.1)).drop 1) rest))
                (dictRemove kwargs "enabled"))
    ∧ (∀ w, aLookup c.check_func_params "enabled" = some w →
        "enabled" ∈ (c.check_func.params.map (fun p => p.1)).drop 1) := by
  have hne : ("check_func" : String) ≠ "enabled" := by decide
  have hget : aLookup (dictRemove kwargs "enabled") "check_func"
      = aLookup kwargs "check_func" :=
    aLookup_dictRemove_ne kwargs "enabled" "check_func" hne
  have hnd1 : ((dictRemove kwargs "enabled").map (fun p => p.1)).Nodup :=
    dictRemove_keys_nodup kwargs "enabled" hnd
  refine ⟨?_, ?_, ?_⟩
  · intro v hv htr
    have hcfv : (aLookup (dictRemove kwargs "enabled") "check_func").getD Val.none
        = v := by
      rw [hget, hv]
      rfl
    simp only [CustomCheck.init] at h
    rw [hcfv, if_pos htr] at h
    split at h
    next e heq => cases h
    next cf heq =>
      cases h
      refine ⟨heq, rfl, ?_⟩
      rw [aLookup_dictUpdates_nodup _ _ _ hnd1, hget, hv]
  · intro hfalse
    have hfalse1 : ((aLookup (dictRemove kwargs "enabled") "check_func").getD
        Val.none).truthy = false := by
      rw [hget]
      exact hfalse
    simp only [CustomCheck.init] at h
    rw [if_neg (by simp [hfalse1])] at h
    split at h
    next heq => cases h
    next unusedArgs a rest =>
      split at h
      next e heq2 => cases h
      next cf heq2 =>
        cases h
        exact ⟨a, rest, rfl, heq2, rfl⟩
  · intro w hw
    have hform : ∃ vals : List Val, c.check_func_params
        = dictUpdates
            (listToDict
              (List.zip ((c.check_func.params.map (fun p => p.1)).drop 1) vals))
            (dictRemove kwargs "enabled") := by
      simp only [CustomCheck.init] at h
      split at h
      · split at h
        next e heq => cases h
        next cf heq =>
          cases h
          exact ⟨args, rfl⟩
      · split at h
        next heq => cases h
        next unusedArgs a rest =>
          split at h
          next e heq2 => cases h
          next cf heq2 =>
            cases h
            exact ⟨rest, rfl⟩
    obtain ⟨vals, hcp⟩ := hform
    rw [hcp, aLookup_dictUpdates_nodup _ _ _ hnd1,
      aLookup_dictRemove_self] at hw
    by_cases hmem : "enabled"
        ∈ (List.zip ((c.check_func.params.map (fun p => p.1)).drop 1) vals).map
            (fun p => p.1)
    · obtain ⟨p, hp, hpk⟩ := List.mem_map.mp hmem
      have := List.of_mem_zip hp
      rw [← hpk]
      exact this.1
    · rw [listToDict_lookup_none _ _ hmem] at hw
      cases hw

/-- Counterexample for C8 as stated: with `check_func` supplied by keyword,
the forwarded configuration mapping DOES contain the key `check_func`
(it is read with `get`, not `pop`); and a check operation declaring a
configuration parameter literally named `enabled` receives an `enabled`
entry bound positionally — so the mapping is not free of either key. -/
theorem c8_cex :
    ((CustomCheck.init heap0 [] [("check_func", Val.fn 0), ("p", Val.int 1)]).map
        (fun c => c.check_func_params)
      = Except.ok [("check_func", Val.fn 0), ("p", Val.int 1)])
    ∧ ((CustomCheck.init heap0 [Val.fn 1, Val.int 5] []).map
        (fun c => c.check_func_params)
      = Except.ok [("enabled", Val.int 5)]) := ⟨rfl, rfl⟩

/-- Witness for C8: constructing `CustomCheck(check_func=<fn 0>, p=1)`
resolves `fn 0`, builds the configuration `{"check_func": fn 0, "p": 1}`,
and that mapping still holds `check_func`. -/
theorem c8_custom_config_witness :
    resolveFn heap0 (Val.fn 0) = Except.ok c8c.check_func
    ∧ aLookup c8c.check_func_params "check_func" = some (Val.fn 0) := by
  have h := (c8_custom_config heap0 []
    [("check_func", Val.fn 0), ("p", Val.int 1)] c8c (by decide) rfl).1
    (Val.fn 0) rfl rfl
  exact ⟨h.1, h.2.2⟩

/-- C9, amended: after module initialization, for every function-valued
member of the check library owned by `bulwark.checks` — EXCEPT one whose
derived camel-case name is `CustomCheck` (i.e. `custom_check`, whose
auto-generated wrapper is deliberately overwritten by the hand-written
`CustomCheck` class), and provided no other member maps to the same derived
name (later registrations silently shadow earlier ones) — the module
attribute named by the snake-to-camel conversion of the member's name holds
the generated wrapper class bound to that member's function; constructing
it accepts the function's declared parameters minus the first as the
configuration parameter names of the resulting wrapper. -/
theorem c9_registry_generation (ms : List Member) (m : Member)
    (hm : m ∈ check_functions ms)
    (hinj : ∀ m2 ∈ check_functions ms,
      snake_to_camel m2.name = snake_to_camel m.name → m2.name = m.name)
    (hcc : snake_to_camel m.name ≠ "CustomCheck") :
    aLookup (moduleInit ms) (snake_to_camel m.name)
      = some (RegEntry.generated m.name)
    ∧ (∀ args kwargs d2, decorator_factory m.fn args kwargs = Except.ok d2 →
        d2.check_func = m.fn
        ∧ d2.params = (m.fn.params.map (fun p => p.1)).drop 1) := by
  constructor
  · unfold moduleInit
    rw [aLookup_dictUpdate, if_neg (fun hk => hcc hk.symm), regFold_lookup]
    have hmemf : m ∈ (check_functions ms).filter
        (fun m2 => snake_to_camel m2.name == snake_to_camel m.name) :=
      List.mem_filter.mpr ⟨hm, by simp⟩
    cases hle : lastEntry ((check_functions ms).filter
        (fun m2 => snake_to_camel m2.name == snake_to_camel m.name)) with
    | none => exact absurd hle (lastEntry_ne_none (List.ne_nil_of_mem hmemf))
    | some m2 =>
      have hm2f := List.mem_filter.mp (lastEntry_mem hle)
      have hname : m2.name = m.name :=
        hinj m2 hm2f.1 (by simpa using hm2f.2)
      show some (RegEntry.generated m2.name) = some (RegEntry.generated m.name)
      rw [hname]
  · intro args kwargs d2 hd2
    unfold decorator_factory BaseDecorator.init at hd2
    split at hd2
    · cases hd2
      exact ⟨rfl, rfl⟩
    · cases hd2

/-- Counterexample for C9 as stated: in a module whose only check function
is `custom_check`, the attribute named `CustomCheck` (its derived name)
ends up holding the hand-written `CustomCheck` class, not the generated
wrapper bound to `custom_check` — the class definition below the loop
overwrites it, exactly as the source comments. -/
theorem c9_cex :
    aLookup (moduleInit [mCustomCheck]) "CustomCheck"
      = some RegEntry.customClass
    ∧ snake_to_camel "custom_check" = "CustomCheck"
    ∧ RegEntry.customClass ≠ RegEntry.generated "custom_check" :=
  ⟨rfl, by decide, by decide⟩

/-- Witness for C9: in a module whose single check function is
`has_no_nans`, the attribute `HasNoNans` holds the generated wrapper bound
to it. -/
theorem c9_registry_generation_witness :
    aLookup (moduleInit [mHasNans]) (snake_to_camel "has_no_nans")
      = some (RegEntry.generated "has_no_nans") := by
  have hcf : check_functions [mHasNans] = [mHasNans] := rfl
  have hm : mHasNans ∈ check_functions [mHasNans] := by
    rw [hcf]
    exact List.mem_singleton.mpr rfl
  have hinj : ∀ m2 ∈ check_functions [mHasNans],
      snake_to_camel m2.name = snake_to_camel mHasNans.name →
      m2.name = mHasNans.name := by
    intro m2 hm2 _
    rw [hcf] at hm2
    rw [List.mem_singleton.mp hm2]
  exact (c9_registry_generation [mHasNans] mHasNans hm hinj (by decide)).1
